import Mathlib

/-!
Shallow embedding of `src/parse.rs` of the `matfile` crate: a parser for the
MATLAB Level-5 MAT-file binary container format, written in Rust with nom 4
macro combinators.

Modelling conventions:
* A byte buffer `&[u8]` is a `List Nat`; entries are byte values (`< 256` for
  every buffer that can actually occur; the definitions do not re-check this).
* A nom parser `fn(&[u8]) -> IResult<&[u8], A>` becomes
  `List Nat → Except PErr (A × List Nat)` returning the value together with
  the remaining input.
* `nom::Err` has three constructors; `PErr` mirrors them.  Positions are the
  error's input slice (`nom::Context::Code(slice, kind)`), kept as the
  `List Nat` that the slice denotes.  Error kinds are kept as numerals: the
  source's custom codes are kept verbatim (41, 42, 43, 44, 46, 48) and nom's
  built-in kinds are given fixed numerals ≥ 1000 (documented at `kNot` etc.).
* Machine integers are `Nat`/`Int` with explicit wrap-arounds (`% 2 ^ w`)
  exactly where Rust release-mode arithmetic wraps.
* Strings stay as their byte lists; `std::str::from_utf8` becomes the
  `validUtf8` well-formedness check (Rust `String.len()` is the byte length,
  so lengths agree).
* `f32`/`f64` payloads are kept as raw bit words (`Nat`); no claim inspects
  float values.
* The zlib inflate step of `parse_compressed_data_element` is an external
  collaborator (the `libflate` crate); it is passed in as a function
  `inflate : List Nat → Option (List Nat)` (`none` = either of the two
  `DecompressionFailure` sites of the source).
* The recursion of the element parsers (compressed elements re-enter the
  top-level reader, structure fields re-enter the matrix reader) is made
  total with a fuel parameter; running out of fuel yields the failure code
  `kFuel`, which cannot occur for buffers whose nesting depth is below the
  fuel.
-/

/-- `nom::Endianness`. -/
inductive Endian where
  | little
  | big
deriving DecidableEq, Repr

/-- `nom::Err`: `Incomplete(Needed)`, `Error(Context)`, `Failure(Context)`.
A `Context::Code(slice, kind)` is kept as the slice plus a numeric kind. -/
inductive PErr where
  | incomplete (needed : Nat)
  | error (slice : List Nat) (kind : Nat)
  | failure (slice : List Nat) (kind : Nat)
deriving DecidableEq, Repr

/-- Numerals for nom's built-in `ErrorKind`s used by the modelled
combinators.  The concrete values are irrelevant; they only need to be
distinct from the source's custom codes. -/
def kNot : Nat := 1000
/-- `ErrorKind::Count` (also produced by `count_fixed!`). -/
def kCount : Nat := 1001
/-- `ErrorKind::Switch`. -/
def kSwitch : Nat := 1002
/-- `ErrorKind::Complete` / length_value's conversion of an inner `Incomplete`. -/
def kComplete : Nat := 1003
/-- `ErrorKind::MapRes`. -/
def kMapRes : Nat := 1004
/-- `ErrorKind::Tag`. -/
def kTag : Nat := 1005
/-- `ErrorKind::Alt`. -/
def kAlt : Nat := 1006
/-- `ErrorKind::Many0`. -/
def kMany : Nat := 1007
/-- Fuel exhaustion of the model (no counterpart in the source: it recurses
without any depth bound). -/
def kFuel : Nat := 999

/-- The type of embedded nom parsers. -/
def ParserFn (α : Type) : Type := List Nat → Except PErr (α × List Nat)

/-- `take!(n)` (streaming): `Incomplete` when fewer than `n` bytes remain. -/
def takeP (n : Nat) : ParserFn (List Nat) := fun i =>
  if n ≤ i.length then .ok (i.take n, i.drop n) else .error (.incomplete n)

/-- `tag!(bs)` (streaming): match the literal bytes `bs`. -/
def tagP (bs : List Nat) : ParserFn (List Nat) := fun i =>
  if i.length < bs.length then
    if i = bs.take i.length then .error (.incomplete bs.length)
    else .error (.error i kTag)
  else if i.take bs.length = bs then .ok (bs, i.drop bs.length)
  else .error (.error i kTag)

/-- Little/big-endian 16-bit value of two bytes. -/
def val16 (e : Endian) (b0 b1 : Nat) : Nat :=
  match e with
  | .little => b0 + 256 * b1
  | .big => b1 + 256 * b0

/-- Little/big-endian 32-bit value of four bytes. -/
def val32 (e : Endian) (b0 b1 b2 b3 : Nat) : Nat :=
  match e with
  | .little => b0 + 256 * b1 + 65536 * b2 + 16777216 * b3
  | .big => b3 + 256 * b2 + 65536 * b1 + 16777216 * b0

/-- Little/big-endian 64-bit value of eight bytes. -/
def val64 (e : Endian) (b0 b1 b2 b3 b4 b5 b6 b7 : Nat) : Nat :=
  match e with
  | .little => val32 .little b0 b1 b2 b3 + 4294967296 * val32 .little b4 b5 b6 b7
  | .big => val32 .big b4 b5 b6 b7 + 4294967296 * val32 .big b0 b1 b2 b3

/-- Two's-complement reading of an 8-bit value. -/
def toS8 (v : Nat) : Int := if v < 128 then (v : Int) else (v : Int) - 256

/-- Two's-complement reading of a 16-bit value. -/
def toS16 (v : Nat) : Int := if v < 32768 then (v : Int) else (v : Int) - 65536

/-- Two's-complement reading of a 32-bit value. -/
def toS32 (v : Nat) : Int :=
  if v < 2147483648 then (v : Int) else (v : Int) - 4294967296

/-- Two's-complement reading of a 64-bit value. -/
def toS64 (v : Nat) : Int :=
  if v < 9223372036854775808 then (v : Int) else (v : Int) - 18446744073709551616

/-- `u16::swap_bytes` on a 16-bit value. -/
def swapBytes16 (v : Nat) : Nat := (v % 256) * 256 + v / 256

/-- Wrap an unbounded integer into the signed 32-bit range (Rust release-mode
`i32` wrapping semantics). -/
def wrapI32 (v : Int) : Int := (v + 2147483648).emod 4294967296 - 2147483648

/-- Rust `x as usize` on an `i32` value: sign-extend, then reinterpret as an
unsigned 64-bit value. -/
def usizeOfI32 (v : Int) : Nat := (v.emod 18446744073709551616).toNat

/-- Rust release-mode `a - b` on `usize` operands: wrapping subtraction. -/
def usizeSub (a b : Nat) : Nat :=
  (((a : Int) - (b : Int)).emod 18446744073709551616).toNat

-- Primitive value readers (`le_u8`/`be_u8`, `le_i16`/`be_i16`, ...).

/-- `le_u8` / `be_u8`. -/
def u8P : ParserFn Nat := fun i =>
  match i with
  | b :: r => .ok (b, r)
  | [] => .error (.incomplete 1)

/-- `le_i8` / `be_i8`. -/
def i8P : ParserFn Int := fun i =>
  match i with
  | b :: r => .ok (toS8 b, r)
  | [] => .error (.incomplete 1)

/-- `u16!(endianness)`. -/
def u16P (e : Endian) : ParserFn Nat := fun i =>
  match i with
  | b0 :: b1 :: r => .ok (val16 e b0 b1, r)
  | _ => .error (.incomplete 2)

/-- `le_i16` / `be_i16`. -/
def i16P (e : Endian) : ParserFn Int := fun i =>
  match i with
  | b0 :: b1 :: r => .ok (toS16 (val16 e b0 b1), r)
  | _ => .error (.incomplete 2)

/-- `u32!(endianness)`. -/
def u32P (e : Endian) : ParserFn Nat := fun i =>
  match i with
  | b0 :: b1 :: b2 :: b3 :: r => .ok (val32 e b0 b1 b2 b3, r)
  | _ => .error (.incomplete 4)

/-- `i32!(endianness)`. -/
def i32P (e : Endian) : ParserFn Int := fun i =>
  match i with
  | b0 :: b1 :: b2 :: b3 :: r => .ok (toS32 (val32 e b0 b1 b2 b3), r)
  | _ => .error (.incomplete 4)

/-- `le_u64` / `be_u64`. -/
def u64P (e : Endian) : ParserFn Nat := fun i =>
  match i with
  | b0 :: b1 :: b2 :: b3 :: b4 :: b5 :: b6 :: b7 :: r =>
    .ok (val64 e b0 b1 b2 b3 b4 b5 b6 b7, r)
  | _ => .error (.incomplete 8)

/-- `le_i64` / `be_i64`. -/
def i64P (e : Endian) : ParserFn Int := fun i =>
  match i with
  | b0 :: b1 :: b2 :: b3 :: b4 :: b5 :: b6 :: b7 :: r =>
    .ok (toS64 (val64 e b0 b1 b2 b3 b4 b5 b6 b7), r)
  | _ => .error (.incomplete 8)

/-- `le_f32` / `be_f32`, kept as the raw 32-bit word. -/
def f32P (e : Endian) : ParserFn Nat := u32P e

/-- `le_f64` / `be_f64`, kept as the raw 64-bit word. -/
def f64P (e : Endian) : ParserFn Nat := u64P e

/-- `count!(p, n)`: run `p` exactly `n` times, raw error propagation
(the `ErrorKind::Count` conversion is layered on by `countP`). -/
def countPAux (p : ParserFn α) : Nat → ParserFn (List α)
  | 0 => fun i => .ok ([], i)
  | n + 1 => fun i =>
    match p i with
    | .error er => .error er
    | .ok (a, r) =>
      match countPAux p n r with
      | .error er => .error er
      | .ok (as, r2) => .ok (a :: as, r2)

/-- `count!(p, n)` with nom 4's error handling: an `Err::Error` of any
iteration becomes `Error(ErrorKind::Count)` positioned at the start input;
`Failure` and `Incomplete` pass through. -/
def countP (p : ParserFn α) (n : Nat) : ParserFn (List α) := fun i =>
  match countPAux p n i with
  | .error (.error _ _) => .error (.error i kCount)
  | r => r

-- Validity of UTF-8 byte sequences, as accepted by `std::str::from_utf8`.

/-- A UTF-8 continuation byte (`0x80..=0xBF`). -/
def isCont (b : Nat) : Bool := 128 ≤ b && b ≤ 191

/-- Well-formedness of a byte list as UTF-8 (what `std::str::from_utf8`
accepts: no overlong forms, no surrogates, max `U+10FFFF`). -/
def validUtf8 : List Nat → Bool
  | [] => true
  | b :: r =>
    if b < 128 then validUtf8 r
    else if 194 ≤ b && b ≤ 223 then
      match r with
      | c1 :: r1 => isCont c1 && validUtf8 r1
      | [] => false
    else if b = 224 then
      match r with
      | c1 :: c2 :: r2 => (160 ≤ c1 && c1 ≤ 191) && isCont c2 && validUtf8 r2
      | _ => false
    else if (225 ≤ b && b ≤ 236) || (238 ≤ b && b ≤ 239) then
      match r with
      | c1 :: c2 :: r2 => isCont c1 && isCont c2 && validUtf8 r2
      | _ => false
    else if b = 237 then
      match r with
      | c1 :: c2 :: r2 => (128 ≤ c1 && c1 ≤ 159) && isCont c2 && validUtf8 r2
      | _ => false
    else if b = 240 then
      match r with
      | c1 :: c2 :: c3 :: r3 =>
        (144 ≤ c1 && c1 ≤ 191) && isCont c2 && isCont c3 && validUtf8 r3
      | _ => false
    else if 241 ≤ b && b ≤ 243 then
      match r with
      | c1 :: c2 :: c3 :: r3 => isCont c1 && isCont c2 && isCont c3 && validUtf8 r3
      | _ => false
    else if b = 244 then
      match r with
      | c1 :: c2 :: c3 :: r3 =>
        (128 ≤ c1 && c1 ≤ 143) && isCont c2 && isCont c3 && validUtf8 r3
      | _ => false
    else false

-- The data model of `parse.rs`.

/-- `enum DataType` with its MAT5 numeric codes. -/
inductive DataType where
  | Int8
  | UInt8
  | Int16
  | UInt16
  | Int32
  | UInt32
  | Single
  | Double
  | Int64
  | UInt64
  | Matrix
  | Compressed
  | Utf8
  | Utf16
  | Utf32
deriving DecidableEq, Repr

/-- `DataType::from_u32` (derived by `Primitive` from the discriminants). -/
def DataType.from_u32 (n : Nat) : Option DataType :=
  match n with
  | 1 => some .Int8
  | 2 => some .UInt8
  | 3 => some .Int16
  | 4 => some .UInt16
  | 5 => some .Int32
  | 6 => some .UInt32
  | 7 => some .Single
  | 9 => some .Double
  | 12 => some .Int64
  | 13 => some .UInt64
  | 14 => some .Matrix
  | 15 => some .Compressed
  | 16 => some .Utf8
  | 17 => some .Utf16
  | 18 => some .Utf32
  | _ => none

/-- `enum ArrayType` with its MAT5 array-class codes. -/
inductive ArrayType where
  | Cell
  | Struct
  | Object
  | Char
  | Sparse
  | Double
  | Single
  | Int8
  | UInt8
  | Int16
  | UInt16
  | Int32
  | UInt32
  | Int64
  | UInt64
deriving DecidableEq, Repr

/-- `ArrayType::from_u8` (derived by `Primitive` from the discriminants). -/
def ArrayType.from_u8 (n : Nat) : Option ArrayType :=
  match n with
  | 1 => some .Cell
  | 2 => some .Struct
  | 3 => some .Object
  | 4 => some .Char
  | 5 => some .Sparse
  | 6 => some .Double
  | 7 => some .Single
  | 8 => some .Int8
  | 9 => some .UInt8
  | 10 => some .Int16
  | 11 => some .UInt16
  | 12 => some .Int32
  | 13 => some .UInt32
  | 14 => some .Int64
  | 15 => some .UInt64
  | _ => none

/-- `ArrayType::numeric_data_type` — note the source maps the `Int32` array
class to `DataType::UInt32` (parse.rs line 254). -/
def ArrayType.numeric_data_type : ArrayType → Option DataType
  | .Double => some .Double
  | .Single => some .Single
  | .Int8 => some .Int8
  | .UInt8 => some .UInt8
  | .Int16 => some .Int16
  | .UInt16 => some .UInt16
  | .Int32 => some .UInt32
  | .UInt32 => some .UInt32
  | .Int64 => some .Int64
  | .UInt64 => some .UInt64
  | _ => none

/-- `enum NumericData`.  Integer variants carry the decoded values
(signed ones as `Int`); `Single`/`Double` carry raw bit words. -/
inductive NumericData where
  | Int8 (v : List Int)
  | UInt8 (v : List Nat)
  | Int16 (v : List Int)
  | UInt16 (v : List Nat)
  | Int32 (v : List Int)
  | UInt32 (v : List Nat)
  | Int64 (v : List Int)
  | UInt64 (v : List Nat)
  | Single (v : List Nat)
  | Double (v : List Nat)
deriving DecidableEq, Repr

/-- `NumericData::len`. -/
def NumericData.len : NumericData → Nat
  | .Single v => v.length
  | .Double v => v.length
  | .Int8 v => v.length
  | .UInt8 v => v.length
  | .Int16 v => v.length
  | .UInt16 v => v.length
  | .Int32 v => v.length
  | .UInt32 v => v.length
  | .Int64 v => v.length
  | .UInt64 v => v.length

/-- `NumericData::data_type`. -/
def NumericData.data_type : NumericData → DataType
  | .Single _ => .Single
  | .Double _ => .Double
  | .Int8 _ => .Int8
  | .UInt8 _ => .UInt8
  | .Int16 _ => .Int16
  | .UInt16 _ => .UInt16
  | .Int32 _ => .Int32
  | .UInt32 _ => .UInt32
  | .Int64 _ => .Int64
  | .UInt64 _ => .UInt64

/-- `struct ArrayFlags` (the source field `class` is a Lean keyword and is
rendered `klass`). -/
structure ArrayFlags where
  complex : Bool
  global : Bool
  logical : Bool
  klass : ArrayType
  nzmax : Nat
deriving DecidableEq, Repr

/-- `struct Header`.  The descriptive text is kept as its raw bytes (the
source stores `from_utf8(text).unwrap_or("")`; no claim inspects the text). -/
structure Header where
  text : List Nat
  is_little_endian : Bool
deriving DecidableEq, Repr

/-- `struct DataElementTag`. -/
structure DataElementTag where
  data_type : DataType
  data_byte_size : Nat
  padding_byte_size : Nat
deriving DecidableEq, Repr

/-- `enum DataElement`.  Field names (`String`) are kept as byte lists. -/
inductive DataElement where
  | StructureMatrix (flags : ArrayFlags) (dimensions : List Int)
      (name : List Nat) (field_name_length : Int)
      (field_names : List (List Nat)) (fields : List DataElement)
  | SparseMatrix (flags : ArrayFlags) (dimensions : List Int)
      (name : List Nat) (row_index : List Nat) (column_shift : List Nat)
      (real : NumericData) (imag : Option NumericData)
  | NumericMatrix (flags : ArrayFlags) (dimensions : List Int)
      (name : List Nat) (real : NumericData) (imag : Option NumericData)
  | Unsupported
deriving Repr

/-- `struct ParseResult`. -/
structure ParseResult where
  header : Header
  data_elements : List DataElement
deriving Repr

-- The parsers of `parse.rs`.

/-- `fn assert(i, v)`: `Ok` on `true`, `Err::Failure(Custom(48))` at the
current input otherwise. -/
def assertP (v : Bool) : ParserFn Unit := fun i =>
  if v then .ok ((), i) else .error (.failure i 48)

/-- `fn ceil_to_multiple(x, multiple)`. -/
def ceil_to_multiple (x multiple : Nat) : Nat :=
  if x > 0 then (((x - 1) / multiple) + 1) * multiple else 0

/-- `fn parse_data_element_tag`: peek a 4-byte word; upper 16 bits zero means
the long form (two 4-byte words, padding rounds the length up to a multiple
of 8), otherwise the compact form (type in the low 16 bits, length in the
high 16 bits, padding `4 - length` computed as wrapping `u32` subtraction —
the source's `TODO: assert that byte_size is <= 4` is not implemented).
Unknown type codes are `Err::Failure(Custom(46))` at the original input. -/
def parse_data_element_tag (e : Endian) : ParserFn DataElementTag := fun i =>
  match i with
  | b0 :: b1 :: b2 :: b3 :: rest =>
    let w := val32 e b0 b1 b2 b3
    if w &&& 0xFFFF0000 = 0 then
      -- Long Data Element Format
      match rest with
      | c0 :: c1 :: c2 :: c3 :: rest2 =>
        let byteSize := val32 e c0 c1 c2 c3
        match DataType.from_u32 w with
        | none => .error (.failure i 46)
        | some dt =>
          .ok (⟨dt, byteSize, ceil_to_multiple byteSize 8 - byteSize⟩, rest2)
      | _ => .error (.incomplete 4)
    else
      -- Small Data Element Format
      let dtCode := w &&& 0x0000FFFF
      let byteSize := (w &&& 0xFFFF0000) >>> 16
      match DataType.from_u32 dtCode with
      | none => .error (.failure i 46)
      | some dt =>
        .ok (⟨dt, byteSize, (4 + 4294967296 - byteSize) % 4294967296⟩, rest)
  | _ => .error (.incomplete 4)

/-- The peeked leading null check of `parse_header`:
`peek!(count_fixed!(_, pair!(not!(char!('\0')), take!(1)), 4))`, with the four
fixed iterations of `count_fixed!` unrolled.  The bytes are inspected left to
right; the first null byte makes `not!` fail, which `count_fixed!` converts
to `Error(ErrorKind::Count)` at the original input; running out of input
first is `Incomplete` (from `char!`/`take!(1)`).  Returns `none` when all
four leading bytes exist and are non-null (then `peek!` restores the input). -/
def nonnull4 (i : List Nat) : Option PErr :=
  match i with
  | [] => some (.incomplete 1)
  | [b0] =>
    if b0 = 0 then some (.error i kCount) else some (.incomplete 1)
  | [b0, b1] =>
    if b0 = 0 then some (.error i kCount)
    else if b1 = 0 then some (.error i kCount)
    else some (.incomplete 1)
  | [b0, b1, b2] =>
    if b0 = 0 then some (.error i kCount)
    else if b1 = 0 then some (.error i kCount)
    else if b2 = 0 then some (.error i kCount)
    else some (.incomplete 1)
  | b0 :: b1 :: b2 :: b3 :: _ =>
    if b0 = 0 then some (.error i kCount)
    else if b1 = 0 then some (.error i kCount)
    else if b2 = 0 then some (.error i kCount)
    else if b3 = 0 then some (.error i kCount)
    else none

/-- `fn parse_header`: null guard (peeked), 116 bytes of text, 8 skipped
bytes, a version `u16` read little-endian, the `"IM"`/`"MI"` endianness
marker, byte-order correction of the version, and the `0x0100` check. -/
def parse_header : ParserFn Header := fun i =>
  match nonnull4 i with
  | some er => .error er
  | none =>
    match takeP 116 i with
    | .error er => .error er
    | .ok (text, i1) =>
      match takeP 8 i1 with
      | .error er => .error er
      | .ok (_ssdo, i2) =>
        match u16P .little i2 with
        | .error er => .error er
        | .ok (version, i3) =>
          -- alt!(value!(true, tag!("IM")) | value!(false, tag!("MI")))
          match
            ((match tagP [73, 77] i3 with
              | .ok (_, r) => .ok (true, r)
              | .error (.error _ _) =>
                match tagP [77, 73] i3 with
                | .ok (_, r) => .ok (false, r)
                | .error (.error _ _) => .error (.error i3 kAlt)
                | .error er => .error er
              | .error er => .error er) : Except PErr (Bool × List Nat)) with
          | .error er => .error er
          | .ok (isLE, i4) =>
            let version2 := if isLE then version else swapBytes16 version
            if version2 = 0x0100 then
              .ok ({ text := text, is_little_endian := isLE }, i4)
            else .error (.failure i4 48)

/-- `fn parse_array_flags_subelement`: two raw `u32` tag words asserted to be
`(UInt32, 8)`, then the flags word and `nzmax`.  An unrecognized array class
is `Err::Failure(Custom(44))` at the original input. -/
def parse_array_flags_subelement (e : Endian) : ParserFn ArrayFlags := fun i =>
  match u32P e i with
  | .error er => .error er
  | .ok (tagDataType, i1) =>
    match u32P e i1 with
    | .error er => .error er
    | .ok (tagDataLen, i2) =>
      match assertP (tagDataType == 6 && tagDataLen == 8) i2 with
      | .error er => .error er
      | .ok (_, i2) =>
        match u32P e i2 with
        | .error er => .error er
        | .ok (flagsAndClass, i3) =>
          match u32P e i3 with
          | .error er => .error er
          | .ok (nzmax, i4) =>
            match ArrayType.from_u8 (flagsAndClass &&& 0xFF) with
            | none => .error (.failure i 44)
            | some cls =>
              .ok ({ complex := (flagsAndClass &&& 0x0800) != 0,
                     global := (flagsAndClass &&& 0x0400) != 0,
                     logical := (flagsAndClass &&& 0x0200) != 0,
                     klass := cls,
                     nzmax := nzmax }, i4)

/-- `fn parse_dimensions_array_subelement`: tag asserted `Int32`, length ≥ 8
and a multiple of 4; then `length / 4` signed 32-bit extents and the tag's
padding. -/
def parse_dimensions_array_subelement (e : Endian) : ParserFn (List Int) := fun i =>
  match parse_data_element_tag e i with
  | .error er => .error er
  | .ok (tag, i1) =>
    match assertP (tag.data_type == .Int32 && tag.data_byte_size ≥ 8
        && tag.data_byte_size % 4 == 0) i1 with
    | .error er => .error er
    | .ok (_, i1) =>
      match countP (i32P e) (tag.data_byte_size / 4) i1 with
      | .error er => .error er
      | .ok (dims, i2) =>
        match takeP tag.padding_byte_size i2 with
        | .error er => .error er
        | .ok (_, i3) => .ok (dims, i3)

/-- `fn parse_array_name_subelement`: tag asserted `Int8` with positive
length; the name bytes must be valid UTF-8 (`map_res!` with
`ErrorKind::MapRes` on failure); then the tag's padding. -/
def parse_array_name_subelement (e : Endian) : ParserFn (List Nat) := fun i =>
  match parse_data_element_tag e i with
  | .error er => .error er
  | .ok (tag, i1) =>
    match assertP (tag.data_type == .Int8 && tag.data_byte_size > 0) i1 with
    | .error er => .error er
    | .ok (_, i1) =>
      match takeP tag.data_byte_size i1 with
      | .error er => .error er
      | .ok (nameBytes, i2) =>
        if validUtf8 nameBytes then
          match takeP tag.padding_byte_size i2 with
          | .error er => .error er
          | .ok (_, i3) => .ok (nameBytes, i3)
        else .error (.error i1 kMapRes)

/-- `fn numeric_data_types_are_compatible`: the packed-storage
type-compatibility table, transcribed arm by arm from parse.rs 394-454. -/
def numeric_data_types_are_compatible (array_type subelement_type : DataType) : Bool :=
  match array_type with
  | .Int8 =>
    match subelement_type with
    | .Int8 => true
    | _ => false
  | .UInt8 =>
    match subelement_type with
    | .UInt8 => true
    | _ => false
  | .Int16 =>
    match subelement_type with
    | .UInt8 | .Int16 => true
    | _ => false
  | .UInt16 =>
    match subelement_type with
    | .UInt8 | .UInt16 => true
    | _ => false
  | .Int32 =>
    match subelement_type with
    | .UInt8 | .Int16 | .UInt16 | .Int32 => true
    | _ => false
  | .UInt32 =>
    match subelement_type with
    | .UInt8 | .Int16 | .UInt16 | .UInt32 => true
    | _ => false
  | .Int64 =>
    match subelement_type with
    | .UInt8 | .Int16 | .UInt16 | .Int32 | .Int64 => true
    | _ => false
  | .UInt64 =>
    match subelement_type with
    | .UInt8 | .Int16 | .UInt16 | .Int32 | .UInt64 => true
    | _ => false
  | .Single =>
    match subelement_type with
    | .UInt8 | .Int16 | .UInt16 | .Int32 | .Single => true
    | _ => false
  | .Double =>
    match subelement_type with
    | .UInt8 | .Int16 | .UInt16 | .Int32 | .Double => true
    | _ => false
  | _ => false

/-- `fn parse_numeric_subelement`: a tag, then `data_byte_size / width`
primitives of the tag's numeric type (flooring division, as in the source),
then the tag's padding.  A non-numeric tag type falls through `switch!` as
`Error(ErrorKind::Switch)` at the post-tag input. -/
def parse_numeric_subelement (e : Endian) : ParserFn NumericData := fun i =>
  match parse_data_element_tag e i with
  | .error er => .error er
  | .ok (tag, i1) =>
    match
      ((match tag.data_type with
        | .Int8 =>
          match countP i8P tag.data_byte_size i1 with
          | .ok (l, r) => .ok (NumericData.Int8 l, r)
          | .error er => .error er
        | .UInt8 =>
          match countP u8P tag.data_byte_size i1 with
          | .ok (l, r) => .ok (NumericData.UInt8 l, r)
          | .error er => .error er
        | .Int16 =>
          match countP (i16P e) (tag.data_byte_size / 2) i1 with
          | .ok (l, r) => .ok (NumericData.Int16 l, r)
          | .error er => .error er
        | .UInt16 =>
          match countP (u16P e) (tag.data_byte_size / 2) i1 with
          | .ok (l, r) => .ok (NumericData.UInt16 l, r)
          | .error er => .error er
        | .Int32 =>
          match countP (i32P e) (tag.data_byte_size / 4) i1 with
          | .ok (l, r) => .ok (NumericData.Int32 l, r)
          | .error er => .error er
        | .UInt32 =>
          match countP (u32P e) (tag.data_byte_size / 4) i1 with
          | .ok (l, r) => .ok (NumericData.UInt32 l, r)
          | .error er => .error er
        | .Int64 =>
          match countP (i64P e) (tag.data_byte_size / 8) i1 with
          | .ok (l, r) => .ok (NumericData.Int64 l, r)
          | .error er => .error er
        | .UInt64 =>
          match countP (u64P e) (tag.data_byte_size / 8) i1 with
          | .ok (l, r) => .ok (NumericData.UInt64 l, r)
          | .error er => .error er
        | .Single =>
          match countP (f32P e) (tag.data_byte_size / 4) i1 with
          | .ok (l, r) => .ok (NumericData.Single l, r)
          | .error er => .error er
        | .Double =>
          match countP (f64P e) (tag.data_byte_size / 8) i1 with
          | .ok (l, r) => .ok (NumericData.Double l, r)
          | .error er => .error er
        | _ => .error (.error i1 kSwitch)) : Except PErr (NumericData × List Nat)) with
    | .error er => .error er
    | .ok (numericData, i2) =>
      match takeP tag.padding_byte_size i2 with
      | .error er => .error er
      | .ok (_, i3) => .ok (numericData, i3)

/-- `fn parse_field_name_length_subelement`: a tag (whose type code and
padding are NOT examined), then one signed 32-bit integer.  The source
neither validates the tag's type nor consumes padding. -/
def parse_field_name_length_subelement (e : Endian) : ParserFn Int := fun i =>
  match parse_data_element_tag e i with
  | .error er => .error er
  | .ok (_tag, i1) =>
    match i32P e i1 with
    | .error er => .error er
    | .ok (length, i2) => .ok (length, i2)

/-- `take_till!(|i| i == 0)` (streaming): the bytes before the first null, or
`Incomplete` when no null occurs before the end of input. -/
def takeTill0 : List Nat → Option (List Nat × List Nat)
  | [] => none
  | b :: r =>
    if b = 0 then some ([], b :: r)
    else
      match takeTill0 r with
      | none => none
      | some (xs, rest) => some (b :: xs, rest)

/-- `fn parse_field_name`: the name runs until the first null byte (checked
as UTF-8), then `take!(length - name.len())` skips the rest of the stride —
an unchecked `usize` subtraction, modelled with Rust release-mode wrapping
(`usizeSub`); debug builds would panic when `name.len() > length`. -/
def parse_field_name (length : Nat) : ParserFn (List Nat) := fun i =>
  match takeTill0 i with
  | none => .error (.incomplete 1)
  | some (nameBytes, rest) =>
    if validUtf8 nameBytes then
      match takeP (usizeSub length nameBytes.length) rest with
      | .error er => .error er
      | .ok (_, r2) => .ok (nameBytes, r2)
    else .error (.error i kMapRes)

/-- `fn replace_err_slice` (with `replace_context_slice` inlined): replace
the slice of an `Error`/`Failure` context by `new_slice`; `Incomplete` passes
through unchanged. -/
def replace_err_slice (err : PErr) (new_slice : List Nat) : PErr :=
  match err with
  | .incomplete n => .incomplete n
  | .error _ kind => .error new_slice kind
  | .failure _ kind => .failure new_slice kind

/-- `fn parse_unsupported_data_element`: always `Ok((&[], Unsupported))`. -/
def parse_unsupported_data_element : ParserFn DataElement := fun _ =>
  .ok (.Unsupported, [])

/-- `fn parse_numeric_matrix_subelements`: dimensions, name, real part;
asserts the real part's length against the `i32` product of the dimensions
(cast `as usize`) and its stored type against the compatibility table; an
imaginary part under the same assertions when `flags.complex`.  The source's
`flags.class.numeric_data_type().unwrap()` panic on a non-numeric class
(unreachable through the dispatcher) is modelled as failure code 997. -/
def parse_numeric_matrix_subelements (e : Endian) (flags : ArrayFlags) :
    ParserFn DataElement := fun i =>
  match parse_dimensions_array_subelement e i with
  | .error er => .error er
  | .ok (dimensions, i1) =>
    match parse_array_name_subelement e i1 with
    | .error er => .error er
    | .ok (name, i2) =>
      match parse_numeric_subelement e i2 with
      | .error er => .error er
      | .ok (realPart, i3) =>
        let nRequiredElements : Int := wrapI32 dimensions.prod
        match flags.klass.numeric_data_type with
        | none => .error (.failure i3 997)
        | some arrayDataType =>
          match assertP (realPart.len == usizeOfI32 nRequiredElements
              && numeric_data_types_are_compatible arrayDataType realPart.data_type) i3 with
          | .error er => .error er
          | .ok (_, i3) =>
            match
              ((if flags.complex then
                  match parse_numeric_subelement e i3 with
                  | .error er => .error er
                  | .ok (im, i4) => .ok (some im, i4)
                else .ok (none, i3)) : Except PErr (Option NumericData × List Nat)) with
            | .error er => .error er
            | .ok (imagPart, i4) =>
              match assertP
                  (match imagPart with
                   | some im => im.len == usizeOfI32 nRequiredElements
                       && numeric_data_types_are_compatible arrayDataType im.data_type
                   | none => true) i4 with
              | .error er => .error er
              | .ok (_, i5) =>
                .ok (.NumericMatrix flags dimensions name realPart imagPart, i5)

/-- `fn parse_row_index_array_subelement`: tag asserted `Int32` with positive
length, `length / 4` signed 32-bit values converted `as usize`, padding. -/
def parse_row_index_array_subelement (e : Endian) : ParserFn (List Nat) := fun i =>
  match parse_data_element_tag e i with
  | .error er => .error er
  | .ok (tag, i1) =>
    match assertP (tag.data_type == .Int32 && tag.data_byte_size > 0) i1 with
    | .error er => .error er
    | .ok (_, i1) =>
      match countP (i32P e) (tag.data_byte_size / 4) i1 with
      | .error er => .error er
      | .ok (rowIndex, i2) =>
        match takeP tag.padding_byte_size i2 with
        | .error er => .error er
        | .ok (_, i3) => .ok (rowIndex.map usizeOfI32, i3)

/-- `fn parse_column_index_array_subelement`: same shape as the row-index
subelement. -/
def parse_column_index_array_subelement (e : Endian) : ParserFn (List Nat) := fun i =>
  match parse_data_element_tag e i with
  | .error er => .error er
  | .ok (tag, i1) =>
    match assertP (tag.data_type == .Int32 && tag.data_byte_size > 0) i1 with
    | .error er => .error er
    | .ok (_, i1) =>
      match countP (i32P e) (tag.data_byte_size / 4) i1 with
      | .error er => .error er
      | .ok (columnIndex, i2) =>
        match takeP tag.padding_byte_size i2 with
        | .error er => .error er
        | .ok (_, i3) => .ok (columnIndex.map usizeOfI32, i3)

/-- `fn parse_sparse_matrix_subelements`: dimensions, name, row indices,
column shifts, real part asserted to have `nzmax` entries, and an imaginary
part under the same cardinality assertion when `flags.complex` (no type
compatibility is checked for sparse payloads).  The source re-maps the
already-`usize` index vectors with identity `as usize` casts, omitted here. -/
def parse_sparse_matrix_subelements (e : Endian) (flags : ArrayFlags) :
    ParserFn DataElement := fun i =>
  match parse_dimensions_array_subelement e i with
  | .error er => .error er
  | .ok (dimensions, i1) =>
    match parse_array_name_subelement e i1 with
    | .error er => .error er
    | .ok (name, i2) =>
      match parse_row_index_array_subelement e i2 with
      | .error er => .error er
      | .ok (rowIndex, i3) =>
        match parse_column_index_array_subelement e i3 with
        | .error er => .error er
        | .ok (columnIndex, i4) =>
          match parse_numeric_subelement e i4 with
          | .error er => .error er
          | .ok (realPart, i5) =>
            match assertP (realPart.len == flags.nzmax) i5 with
            | .error er => .error er
            | .ok (_, i5) =>
              match
                ((if flags.complex then
                    match parse_numeric_subelement e i5 with
                    | .error er => .error er
                    | .ok (im, i6) => .ok (some im, i6)
                  else .ok (none, i5)) : Except PErr (Option NumericData × List Nat)) with
              | .error er => .error er
              | .ok (imagPart, i6) =>
                match assertP
                    (match imagPart with
                     | some im => im.len == flags.nzmax
                     | none => true) i6 with
                | .error er => .error er
                | .ok (_, i7) =>
                  .ok (.SparseMatrix flags dimensions name rowIndex columnIndex
                        realPart imagPart, i7)

/-- `fn parse_structure_matrix_subelements`: dimensions, name, the
field-name-length subelement, `product(dims)` (as wrapping `i32`, cast
`as usize`) fixed-stride field names, then the same number of field values,
each parsed by re-entering the matrix parser directly (no per-field element
tag, no per-field length delimitation or padding).  The matrix parser used
for the fields is passed as the parameter `pm`; `parse_matrix_data_element`
ties the recursive knot below. -/
def parse_structure_matrix_subelements (pm : ParserFn DataElement) (e : Endian)
    (flags : ArrayFlags) : ParserFn DataElement := fun i =>
  match parse_dimensions_array_subelement e i with
  | .error er => .error er
  | .ok (dimensions, i1) =>
    match parse_array_name_subelement e i1 with
    | .error er => .error er
    | .ok (name, i2) =>
      match parse_field_name_length_subelement e i2 with
      | .error er => .error er
      | .ok (fieldNameLength, i3) =>
        let fieldsNb : Int := wrapI32 dimensions.prod
        match countP (parse_field_name (usizeOfI32 fieldNameLength)) (usizeOfI32 fieldsNb) i3 with
        | .error er => .error er
        | .ok (fieldNames, i4) =>
          match countP pm (usizeOfI32 fieldsNb) i4 with
          | .error er => .error er
          | .ok (fields, i5) =>
            .ok (.StructureMatrix flags dimensions name fieldNameLength
                  fieldNames fields, i5)

/-- `fn parse_matrix_data_element`, factored over the parser `pm` used for
nested structure fields: array flags, then dispatch on the array class
(`Cell`/`Object`/`Char` yield `Unsupported`; the ten numeric classes go to
numeric assembly). -/
def parse_matrix_data_element_with (pm : ParserFn DataElement) (e : Endian) :
    ParserFn DataElement := fun i =>
  match parse_array_flags_subelement e i with
  | .error er => .error er
  | .ok (flags, i1) =>
    match flags.klass with
    | .Cell => parse_unsupported_data_element i1
    | .Struct => parse_structure_matrix_subelements pm e flags i1
    | .Object => parse_unsupported_data_element i1
    | .Char => parse_unsupported_data_element i1
    | .Sparse => parse_sparse_matrix_subelements e flags i1
    | _ => parse_numeric_matrix_subelements e flags i1

/-- The fuel-exhaustion parser (bottom of the fuel stratification). -/
def bottomP : ParserFn DataElement := fun i => .error (.failure i kFuel)

/-- `fn parse_matrix_data_element`, stratified by fuel: nested structure
fields are parsed one fuel level lower. -/
def parse_matrix_data_element : Nat → Endian → ParserFn DataElement
  | 0, e => parse_matrix_data_element_with bottomP e
  | fuel + 1, e =>
    parse_matrix_data_element_with (fun i => parse_matrix_data_element fuel e i) e

/-- `fn parse_compressed_data_element`, factored over the inflate collaborator
and the top-level element parser `pnext` re-entered on the inflated buffer:
on an inner parse failure the error's slice is replaced by the ORIGINAL
compressed input `i` (`replace_err_slice(err, i)`); on success the remaining
input is the empty slice. -/
def parse_compressed_data_element (inflate : List Nat → Option (List Nat))
    (pnext : ParserFn DataElement) : ParserFn DataElement := fun i =>
  match inflate i with
  | none => .error (.failure i 41)
  | some buf =>
    match pnext buf with
    | .error er => .error (replace_err_slice er i)
    | .ok (dataElement, _remaining) => .ok (dataElement, [])

/-- The `next_parser` dispatch of `parse_next_data_element`: `Matrix` and
`Compressed` go to their parsers, everything else (after a diagnostic
println, an observability side channel not modelled) to
`parse_unsupported_data_element`. -/
def innerDispatch (pm pc : ParserFn DataElement) (dt : DataType) :
    ParserFn DataElement :=
  match dt with
  | .Matrix => pm
  | .Compressed => pc
  | _ => parse_unsupported_data_element

/-- `fn parse_next_data_element`, factored over the matrix parser `pm` and
the compressed-element parser `pc`: tag, `length_value!` (take the declared
byte run, run the dispatched parser inside it, discard its leftover), then
`opt!(complete!(take!(padding)))` where the padding is zero for `Compressed`
elements; a missing padding run is swallowed by `opt!`, consuming nothing. -/
def parse_next_step (pm pc : ParserFn DataElement) (e : Endian) :
    ParserFn DataElement := fun i =>
  match parse_data_element_tag e i with
  | .error er => .error er
  | .ok (tag, i1) =>
    match takeP tag.data_byte_size i1 with
    | .error er => .error er
    | .ok (chunk, i2) =>
      match innerDispatch pm pc tag.data_type chunk with
      | .error (.incomplete _) => .error (.error chunk kComplete)
      | .error er => .error er
      | .ok (dataElement, _) =>
        let paddingBytes :=
          if tag.data_type == .Compressed then 0 else tag.padding_byte_size
        match takeP paddingBytes i2 with
        | .ok (_, i3) => .ok (dataElement, i3)
        | .error _ => .ok (dataElement, i2)

/-- `fn parse_next_data_element`, stratified by fuel: the content of a
compressed element is parsed one fuel level lower. -/
def parse_next_data_element (inflate : List Nat → Option (List Nat)) :
    Nat → Endian → ParserFn DataElement
  | 0, e =>
    parse_next_step (parse_matrix_data_element 0 e)
      (parse_compressed_data_element inflate bottomP) e
  | fuel + 1, e =>
    parse_next_step (parse_matrix_data_element (fuel + 1) e)
      (parse_compressed_data_element inflate
        (fun i => parse_next_data_element inflate fuel e i)) e

/-- `complete!(p)`: convert `Incomplete` into `Error(ErrorKind::Complete)`
at the current input. -/
def completeP (p : ParserFn α) : ParserFn α := fun i =>
  match p i with
  | .error (.incomplete _) => .error (.error i kComplete)
  | r => r

/-- `many0!(p)` with nom 4 semantics, made total by recursion on a step
bound: stop (keeping the input position) on `Err::Error`, propagate
`Failure`/`Incomplete`, and fail with `ErrorKind::Many0` if an iteration
succeeds without consuming input. -/
def many0P (p : ParserFn α) : Nat → ParserFn (List α)
  | 0 => fun i => .error (.error i kMany)
  | n + 1 => fun i =>
    match p i with
    | .error (.error _ _) => .ok ([], i)
    | .error er => .error er
    | .ok (a, r) =>
      if r.length = i.length then .error (.error i kMany)
      else
        match many0P p n r with
        | .error er => .error er
        | .ok (as, r2) => .ok (a :: as, r2)

/-- `fn parse_all`: header, then `many0!(complete!(parse_next_data_element))`
with the detected byte order.  The step bound of `many0P` is
`i.length + 1`: each iteration consumes at least one byte, so the bound is
never the limiting factor. -/
def parse_all (inflate : List Nat → Option (List Nat)) (fuel : Nat) :
    ParserFn ParseResult := fun i =>
  match parse_header i with
  | .error er => .error er
  | .ok (header, i1) =>
    let e := if header.is_little_endian then Endian.little else Endian.big
    match many0P (completeP (fun j => parse_next_data_element inflate fuel e j))
        (i1.length + 1) i1 with
    | .error er => .error er
    | .ok (dataElements, i2) =>
      .ok ({ header := header, data_elements := dataElements }, i2)

-- Concrete inputs used by the claim theorems below (byte lists are spelled
-- little-endian, matching the `Endian.little` instantiations).

/-- A 128-byte header whose first four bytes are `[77, 0, 65, 84]` (not all
null, but the second byte IS null), with marker `"IM"` and version `0x0100`
stored little-endian. -/
def c3hdr : List Nat :=
  [77, 0, 65, 84] ++ List.replicate 112 32 ++ List.replicate 8 0 ++ [0, 1, 73, 77]

/-- A well-formed little-endian 128-byte header (`"MATL"`, marker `"IM"`,
version `0x0100`). -/
def c3goodHdr : List Nat :=
  [77, 65, 84, 76] ++ List.replicate 112 32 ++ List.replicate 8 0 ++ [0, 1, 73, 77]

/-- Array flags declaring a `Double` array (flags word 6): not complex. -/
def flD : ArrayFlags :=
  { complex := false, global := false, logical := false, klass := .Double, nzmax := 0 }

/-- Array flags declaring a `Struct` array. -/
def flStruct : ArrayFlags :=
  { complex := false, global := false, logical := false, klass := .Struct, nzmax := 0 }

/-- A numeric-matrix input (starting at the array-flags subelement) declaring
class `Double` and dimensions `[65536, 65536, 2]` — whose `i32` product wraps
to 0 — with an empty `Double` real part (long tag, length 0). -/
def c7bytes : List Nat :=
  [6,0,0,0, 8,0,0,0, 6,0,0,0, 0,0,0,0] ++
  [5,0,0,0, 12,0,0,0, 0,0,1,0, 0,0,1,0, 2,0,0,0, 0,0,0,0] ++
  [1,0,1,0, 97, 0,0,0] ++
  [9,0,0,0, 0,0,0,0]

/-- A complete matrix-element body for a 1x1 `Double` matrix named `"c"`
holding the single `UInt8` value 7 (used as a structure field). -/
def fieldBody : List Nat :=
  [6,0,0,0, 8,0,0,0, 6,0,0,0, 0,0,0,0] ++
  [5,0,0,0, 8,0,0,0, 1,0,0,0, 1,0,0,0] ++
  [1,0,1,0, 99, 0,0,0] ++
  [2,0,1,0, 7, 0,0,0]

/-- The parsed field value of `fieldBody`. -/
def fieldEl0 : DataElement :=
  .NumericMatrix flD [1, 1] [99] (.UInt8 [7]) none

/-- Structure subelements: dimensions `[1, 1]`, name `"a"`, field-name length
2 (an `Int32`-typed compact tag), one field name `"b"`, one field value
(`fieldBody`). -/
def c9bytes : List Nat :=
  [5,0,0,0, 8,0,0,0, 1,0,0,0, 1,0,0,0] ++
  [1,0,1,0, 97, 0,0,0] ++
  [5,0,4,0, 2,0,0,0] ++
  [98, 0] ++ fieldBody

/-- The parsed structure element of `c9bytes` (and of `c6bytes`). -/
def structEl0 : DataElement :=
  .StructureMatrix flStruct [1, 1] [97] 2 [[98]] [fieldEl0]

/-- Exactly `c9bytes`, except that the field-name-length tag declares type
code 4 (`UInt16`) instead of 5 (`Int32`). -/
def c6bytes : List Nat :=
  [5,0,0,0, 8,0,0,0, 1,0,0,0, 1,0,0,0] ++
  [1,0,1,0, 97, 0,0,0] ++
  [4,0,4,0, 2,0,0,0] ++
  [98, 0] ++ fieldBody

/-- An inflate collaborator that always produces `bufZ`. -/
def bufZ : List Nat := [0, 0, 0, 0, 0, 0, 0, 0]

/-- See `bufZ`. -/
def inflZ : List Nat → Option (List Nat) := fun _ => some bufZ

/-- An inflate collaborator that always fails. -/
def inflN : List Nat → Option (List Nat) := fun _ => none

/-- The top-level element parser re-entered on inflated buffers in the C5
instances. -/
def pnextZ : ParserFn DataElement := parse_next_data_element inflZ 1 .little

/-- `ParseChain p as i r`: the values `as` are produced by running `p`
back-to-back starting at input `i`, each run starting exactly where the
previous one stopped, ending at remaining input `r`. -/
def ParseChain (p : ParserFn α) : List α → List Nat → List Nat → Prop
  | [], i, r => i = r
  | a :: as, i, r => ∃ m, p i = .ok (a, m) ∧ ParseChain p as m r

-- Claim theorems.

/-- C1: for array class `Int32`, the numeric-assembly compatibility check
uses the UNSIGNED 32-bit stored type: `numeric_data_type` maps the `Int32`
class to `DataType.UInt32`, and a payload passes
`numeric_data_types_are_compatible` against that target exactly when its
stored type is `UInt8`, `Int16`, `UInt16`, or `UInt32`; a payload stored as
signed `Int32` fails. -/
theorem c1_int32_class_unsigned_compat :
    ArrayType.numeric_data_type ArrayType.Int32 = some DataType.UInt32 ∧
    (∀ st : DataType,
      numeric_data_types_are_compatible DataType.UInt32 st = true ↔
        (st = .UInt8 ∨ st = .Int16 ∨ st = .UInt16 ∨ st = .UInt32)) ∧
    numeric_data_types_are_compatible DataType.UInt32 DataType.Int32 = false := by
  refine ⟨rfl, fun st => ?_, rfl⟩
  cases st <;> simp [numeric_data_types_are_compatible]

/-- C2: the compact tag form does NOT enforce the declared length bound: on
the little-endian tag word `0x00050003` (bytes `[3, 0, 5, 0]`) the parser
accepts a compact tag of type `Int16` with declared length 5 > 4, and the
wrapping `4 - length` padding computation yields `4294967295`, far outside
`[0, 3]` (debug builds would panic on the underflow).  The source carries
`TODO: assert that byte_size is <= 4` at exactly this spot. -/
theorem c2_compact_tag_oversized_length :
    parse_data_element_tag .little [3, 0, 5, 0] =
      .ok (⟨.Int16, 5, 4294967295⟩, []) ∧ ¬(5 ≤ 4) ∧ ¬(4294967295 ≤ 3) := by
  exact ⟨rfl, by decide, by decide⟩

/-- C4 counterexample: an `Int16`-typed subelement with declared length 3
(not divisible by 2) does NOT fail with `SanityCheckFailed`:
`parse_numeric_subelement` succeeds, silently reading `3 / 2 = 1` element
(and eating one declared data byte as padding). -/
theorem c4_counterexample :
    parse_numeric_subelement .little [3, 0, 3, 0, 1, 0, 2, 0] =
      .ok (.Int16 [1], [0]) := rfl

/-- C4 (amended): `parse_numeric_subelement` applies no divisibility check
between the declared byte length and the element width; for an `Int16`-typed
compact tag of declared length 3 it succeeds with `⌊3 / 2⌋ = 1` element for
EVERY choice of payload bytes, consuming two data bytes and one padding
byte. -/
theorem c4_numeric_subelement_floors :
    ∀ (a b c : Nat) (rest : List Nat),
      parse_numeric_subelement .little (3 :: 0 :: 3 :: 0 :: a :: b :: c :: rest) =
        .ok (.Int16 [toS16 (val16 .little a b)], rest) ∧ ¬((2 : Nat) ∣ 3) := by
  intro a b c rest
  have htag : parse_data_element_tag .little (3 :: 0 :: 3 :: 0 :: a :: b :: c :: rest) =
      .ok (⟨.Int16, 3, 1⟩, a :: b :: c :: rest) := rfl
  refine ⟨?_, by decide⟩
  simp [parse_numeric_subelement, htag, countP, countPAux, i16P, takeP]

/-- C8: the padding skip of `parse_field_name` is an unchecked `usize`
subtraction `length - name.len()`.  With stride 2 and input `"abc\0"` the
name scan finds 3 bytes, the subtraction wraps to `2^64 - 1` and the parse
degenerates into `Incomplete(2^64 - 1)` instead of a clean parse error
(debug builds would panic); with the name inside the stride (`"b\0"`) the
same parser returns cleanly. -/
theorem c8_field_name_underflow :
    parse_field_name 2 [97, 98, 99, 0] =
      .error (.incomplete 18446744073709551615) ∧
    usizeSub 2 3 = 18446744073709551615 ∧
    parse_field_name 2 [98, 0] = .ok ([98], []) := by
  exact ⟨rfl, by decide, rfl⟩

/-- C5 counterexample: an inner parse failure inside the inflated buffer
`bufZ` (whose all-zero tag word has unknown type code 0, failure 46) is
reported by `parse_compressed_data_element` with its slice REPLACED by the
original compressed region `[7, 7]` — not by the inflated buffer `bufZ`. -/
theorem c5_counterexample :
    parse_compressed_data_element inflZ pnextZ [7, 7] =
      .error (.failure [7, 7] 46) ∧ ([7, 7] : List Nat) ≠ bufZ :=
  ⟨rfl, by decide⟩

/-- C5 (amended): whenever parsing the inflated buffer fails, the
decompression adapter returns the error with `replace_err_slice` applied:
the positioned slice becomes the ORIGINAL file's compressed region `i` (its
start), and the position inside the inflated buffer is discarded
(`Incomplete` carries no position and passes through). -/
theorem c5_compressed_error_position :
    ∀ (inflate : List Nat → Option (List Nat)) (pnext : ParserFn DataElement)
      (i buf : List Nat) (err : PErr),
      inflate i = some buf → pnext buf = .error err →
      parse_compressed_data_element inflate pnext i = .error (replace_err_slice err i) ∧
      (∀ s k, replace_err_slice (.failure s k) i = .failure i k) ∧
      (∀ s k, replace_err_slice (.error s k) i = .error i k) ∧
      (∀ n, replace_err_slice (.incomplete n) i = .incomplete n) := by
  intro inflate pnext i buf err h1 h2
  refine ⟨?_, fun s k => rfl, fun s k => rfl, fun n => rfl⟩
  simp [parse_compressed_data_element, h1, h2]

/-- C5 witness: the amended statement evaluated at the concrete instance of
the counterexample input. -/
theorem c5_compressed_error_position_witness :
    parse_compressed_data_element inflZ pnextZ [7, 7] =
      .error (replace_err_slice (.failure bufZ 46) [7, 7]) ∧
    (∀ s k, replace_err_slice (.failure s k) [7, 7] = .failure [7, 7] k) ∧
    (∀ s k, replace_err_slice (.error s k) [7, 7] = .error [7, 7] k) ∧
    (∀ n, replace_err_slice (.incomplete n) [7, 7] = .incomplete n) :=
  c5_compressed_error_position inflZ pnextZ [7, 7] bufZ (.failure bufZ 46) rfl rfl

/-- C6 counterexample: the field-name-length tag of `c6bytes` declares type
code 4 (`UInt16`), not the expected `Int32`, yet the whole structure parse
SUCCEEDS (the reader validates nothing and consumes no padding). -/
theorem c6_counterexample :
    parse_data_element_tag .little [4, 0, 4, 0] = .ok (⟨.UInt16, 4, 0⟩, []) ∧
    DataType.UInt16 ≠ DataType.Int32 ∧
    parse_structure_matrix_subelements (parse_matrix_data_element 0 .little)
      .little flStruct c6bytes = .ok (structEl0, []) :=
  ⟨rfl, by decide, rfl⟩

/-- C6 (amended): `parse_field_name_length_subelement` — unlike the other
subelement readers — applies NO element-specific type assertion and consumes
NO trailing padding: for any tag whatsoever it returns the next 4 bytes read
as a signed 32-bit integer, leaving the input right after them. -/
theorem c6_field_name_length_unvalidated :
    ∀ (e : Endian) (i : List Nat) (tag : DataElementTag) (r : List Nat)
      (v : Int) (r2 : List Nat),
      parse_data_element_tag e i = .ok (tag, r) → i32P e r = .ok (v, r2) →
      parse_field_name_length_subelement e i = .ok (v, r2) := by
  intro e i tag r v r2 h1 h2
  simp [parse_field_name_length_subelement, h1, h2]

/-- C6 witness: the amended statement evaluated on a `UInt16`-typed
field-name-length tag. -/
theorem c6_field_name_length_unvalidated_witness :
    parse_field_name_length_subelement .little [4, 0, 4, 0, 1, 0, 0, 0] =
      .ok (1, []) :=
  c6_field_name_length_unvalidated .little [4, 0, 4, 0, 1, 0, 0, 0]
    ⟨.UInt16, 4, 0⟩ [1, 0, 0, 0] 1 [] rfl rfl

/-- C10 counterexample: an uncompressed `Int8` element (long tag, data length
1, padding 7) followed by only two leftover bytes: `parse_next_data_element`
succeeds but consumes NONE of the leftover bytes — the remaining input is
`[8, 9]`, not `[]` as "consuming whatever bytes remain" would give. -/
theorem c10_counterexample :
    parse_next_data_element inflN 1 .little [1, 0, 0, 0, 1, 0, 0, 0, 7, 8, 9] =
      .ok (.Unsupported, [8, 9]) ∧ ([8, 9] : List Nat) ≠ [] :=
  ⟨rfl, by decide⟩

/-- C10 (amended): after the tag and the `length_value!` data run, the
trailing padding of `parse_next_step` (hence of `parse_next_data_element`,
which is `parse_next_step` applied to the fuel-indexed matrix and compressed
parsers) is optional in the following exact sense: `Compressed` elements
consume zero padding bytes; other elements consume the full padding when it
is present, and NOTHING (the parse still succeeding) when fewer bytes than
the padding remain. -/
theorem c10_padding_optional :
    ∀ (pm pc : ParserFn DataElement) (e : Endian) (i : List Nat)
      (tag : DataElementTag) (i1 chunk i2 : List Nat) (de : DataElement)
      (rest : List Nat),
      parse_data_element_tag e i = .ok (tag, i1) →
      takeP tag.data_byte_size i1 = .ok (chunk, i2) →
      innerDispatch pm pc tag.data_type chunk = .ok (de, rest) →
      parse_next_step pm pc e i =
        .ok (de,
          if tag.data_type == .Compressed then i2
          else if tag.padding_byte_size ≤ i2.length then i2.drop tag.padding_byte_size
          else i2) := by
  intro pm pc e i tag i1 chunk i2 de rest h1 h2 h3
  simp only [parse_next_step, h1, h2, h3]
  by_cases hc : tag.data_type == .Compressed
  · simp [hc, takeP]
  · simp only [hc, if_neg, Bool.false_eq_true, if_false]
    by_cases hp : tag.padding_byte_size ≤ i2.length
    · simp [takeP, hp]
    · simp [takeP, hp]

/-- C10 witness: the amended statement evaluated on the counterexample
element (padding 7, only 2 bytes left: nothing is consumed). -/
theorem c10_padding_optional_witness :
    parse_next_step bottomP bottomP .little [1, 0, 0, 0, 1, 0, 0, 0, 7, 8, 9] =
      .ok (.Unsupported, [8, 9]) := by
  have h := c10_padding_optional bottomP bottomP .little
    [1, 0, 0, 0, 1, 0, 0, 0, 7, 8, 9] ⟨.Int8, 1, 7⟩ [7, 8, 9] [7] [8, 9]
    .Unsupported [] rfl rfl rfl
  simpa using h

/-- Helper: `take!(n)` on an input with an explicit `n`-byte prefix. -/
theorem takeP_exact (xs ys : List Nat) (n : Nat) (h : xs.length = n) :
    takeP n (xs ++ ys) = .ok (xs, ys) := by
  subst h
  simp [takeP, List.take_left, List.drop_left]

set_option maxRecDepth 4000 in
/-- C3 counterexample: `c3hdr` is a 128-byte header whose first four bytes
are NOT all null, whose endianness marker is exactly `"IM"`, and whose
version field (corrected for byte order) equals `0x0100` — yet `parse_header`
fails, because its guard rejects ANY null among the first four bytes (here
the second byte). -/
theorem c3_counterexample :
    c3hdr.length = 128 ∧
    c3hdr.take 4 ≠ [0, 0, 0, 0] ∧
    List.drop 124 c3hdr = [0, 1, 73, 77] ∧
    val16 .little 0 1 = 256 ∧
    (parse_header c3hdr).isOk = false :=
  ⟨by decide, by decide, by decide, by decide, by decide⟩

/-- C3 (amended): `parse_header` fails whenever ANY of the first four bytes
is null (in particular when all four are, and without consuming input — the
guard is peeked and the error's slice is the whole input), and succeeds on
every 128-byte header whose first four bytes are EACH non-null, whose marker
is exactly `"IM"` or `"MI"`, and whose version, corrected for the detected
byte order, equals `0x0100`. -/
theorem c3_header_guard :
    (∀ (b0 b1 b2 b3 : Nat) (rest : List Nat),
      (b0 = 0 ∨ b1 = 0 ∨ b2 = 0 ∨ b3 = 0) →
      ∃ er, parse_header (b0 :: b1 :: b2 :: b3 :: rest) = .error er) ∧
    (∀ (b0 b1 b2 b3 v1 v2 m1 m2 : Nat) (t s : List Nat),
      t.length = 112 → s.length = 8 →
      b0 ≠ 0 → b1 ≠ 0 → b2 ≠ 0 → b3 ≠ 0 →
      ((m1 = 73 ∧ m2 = 77 ∧ val16 .little v1 v2 = 256) ∨
       (m1 = 77 ∧ m2 = 73 ∧ swapBytes16 (val16 .little v1 v2) = 256)) →
      parse_header (b0 :: b1 :: b2 :: b3 :: (t ++ s ++ [v1, v2, m1, m2])) =
        .ok ({ text := b0 :: b1 :: b2 :: b3 :: t,
               is_little_endian := m1 == 73 }, [])) := by
  constructor
  · intro b0 b1 b2 b3 rest h
    have hscan : ∃ er, nonnull4 (b0 :: b1 :: b2 :: b3 :: rest) = some er := by
      simp only [nonnull4]
      split_ifs <;> first | exact ⟨_, rfl⟩ | tauto
    obtain ⟨er, her⟩ := hscan
    exact ⟨er, by simp [parse_header, her]⟩
  · intro b0 b1 b2 b3 v1 v2 m1 m2 t s ht hs h0 h1 h2 h3 hm
    have h116 : takeP 116 (b0 :: b1 :: b2 :: b3 :: (t ++ (s ++ [v1, v2, m1, m2]))) =
        .ok (b0 :: b1 :: b2 :: b3 :: t, s ++ [v1, v2, m1, m2]) := by
      have := takeP_exact (b0 :: b1 :: b2 :: b3 :: t) (s ++ [v1, v2, m1, m2]) 116
        (by simp [ht])
      simpa using this
    have h8 : takeP 8 (s ++ [v1, v2, m1, m2]) = .ok (s, [v1, v2, m1, m2]) :=
      takeP_exact s _ 8 hs
    rcases hm with ⟨hm1, hm2, hv⟩ | ⟨hm1, hm2, hv⟩ <;> subst hm1 <;> subst hm2 <;>
      simp [parse_header, nonnull4, h0, h1, h2, h3, h116, h8, u16P, tagP, hv]

/-- C3 witness: the amended statement at concrete inputs — an all-null-prefix
header fails; the well-formed little-endian header `c3goodHdr` parses. -/
theorem c3_header_guard_witness :
    (∃ er, parse_header (0 :: 0 :: 0 :: 0 :: List.replicate 124 7) = .error er) ∧
    parse_header c3goodHdr =
      .ok ({ text := [77, 65, 84, 76] ++ List.replicate 112 32,
             is_little_endian := true }, []) := by
  constructor
  · exact c3_header_guard.1 0 0 0 0 (List.replicate 124 7) (Or.inl rfl)
  · have h := c3_header_guard.2 77 65 84 76 0 1 73 77
      (List.replicate 112 32) (List.replicate 8 0) (by simp) (by simp)
      (by decide) (by decide) (by decide) (by decide)
      (Or.inl ⟨rfl, rfl, by decide⟩)
    simpa [c3goodHdr] using h

-- Helper lemmas shared by the C7 and C9 theorems.

/-- Helper: a succeeding `assert` had a true condition and kept the input. -/
theorem assertP_ok {b : Bool} {i : List Nat} {u : Unit} {j : List Nat}
    (h : assertP b i = .ok (u, j)) : b = true ∧ j = i := by
  by_cases hb : b
  · simp [assertP, hb] at h
    simp [hb, h]
  · simp [assertP, hb] at h

/-- Helper: a succeeding `countP` comes from a succeeding `countPAux`. -/
theorem countP_ok {α : Type} {p : ParserFn α} {n : Nat} {i : List Nat}
    {as : List α} {r : List Nat} (h : countP p n i = .ok (as, r)) :
    countPAux p n i = .ok (as, r) := by
  unfold countP at h
  split at h
  · simp at h
  · exact h

/-- Helper: a succeeding `countPAux p n` produced exactly `n` values by
running `p` back-to-back, each run starting where the previous stopped. -/
theorem countPAux_chain {α : Type} {p : ParserFn α} :
    ∀ {n : Nat} {i : List Nat} {as : List α} {r : List Nat},
      countPAux p n i = .ok (as, r) → as.length = n ∧ ParseChain p as i r := by
  intro n
  induction n with
  | zero =>
    intro i as r h
    simp [countPAux] at h
    simp [h.1, h.2, ParseChain]
  | succ n ih =>
    intro i as r h
    simp only [countPAux] at h
    split at h
    · simp at h
    · next a m hp =>
      split at h
      · simp at h
      · next as2 r2 hrec =>
        obtain ⟨hlen, hchain⟩ := ih hrec
        simp only [Except.ok.injEq, Prod.mk.injEq] at h
        obtain ⟨ha, hr⟩ := h
        subst ha; subst hr
        exact ⟨by simp [hlen], ⟨m, hp, hchain⟩⟩

/-- Helper: a successful structure parse yields a `StructureMatrix` whose
field names and fields each came from a `countP` run of
`usizeOfI32 (wrapI32 dims.prod)` iterations. -/
theorem structure_ok_shape {pm : ParserFn DataElement} {e : Endian}
    {fl : ArrayFlags} {i : List Nat} {de : DataElement} {r : List Nat}
    (h : parse_structure_matrix_subelements pm e fl i = .ok (de, r)) :
    ∃ dims nm fnl fns flds i3 i4,
      de = .StructureMatrix fl dims nm fnl fns flds ∧
      countP (parse_field_name (usizeOfI32 fnl)) (usizeOfI32 (wrapI32 dims.prod)) i3
        = .ok (fns, i4) ∧
      countP pm (usizeOfI32 (wrapI32 dims.prod)) i4 = .ok (flds, r) := by
  unfold parse_structure_matrix_subelements at h
  split at h
  · simp at h
  · next dims i1 hdims =>
    split at h
    · simp at h
    · next nm i2 hnm =>
      split at h
      · simp at h
      · next fnl i3 hfnl =>
        simp only [] at h
        split at h
        · simp at h
        · next fns i4 hfns =>
          split at h
          · simp at h
          · next flds i5 hflds =>
            simp only [Except.ok.injEq, Prod.mk.injEq] at h
            obtain ⟨hde, hr⟩ := h
            subst hr
            exact ⟨dims, nm, fnl, fns, flds, i3, i4, hde.symm, hfns, hflds⟩

/-- Helper: a successful sparse parse yields a `SparseMatrix`. -/
theorem sparse_ok_shape {e : Endian} {fl : ArrayFlags} {i : List Nat}
    {de : DataElement} {r : List Nat}
    (h : parse_sparse_matrix_subelements e fl i = .ok (de, r)) :
    ∃ dims nm ri cs re im, de = .SparseMatrix fl dims nm ri cs re im := by
  unfold parse_sparse_matrix_subelements at h
  split at h
  · simp at h
  · next dims i1 hdims =>
    split at h
    · simp at h
    · next nm i2 hnm =>
      split at h
      · simp at h
      · next ri i3 hri =>
        split at h
        · simp at h
        · next cs i4 hcs =>
          split at h
          · simp at h
          · next re i5 hre =>
            split at h
            · simp at h
            · next u i6 hass =>
              split at h
              · simp at h
              · next im i7 him =>
                split at h
                · simp at h
                · next u2 i8 hass2 =>
                  simp only [Except.ok.injEq, Prod.mk.injEq] at h
                  exact ⟨dims, nm, ri, cs, re, im, h.1.symm⟩

/-- Helper: a successful numeric-matrix assembly yields a `NumericMatrix`
whose real length equals the (wrapping-`i32`, cast-to-`usize`) dimension
product, whose imaginary part is present exactly when `flags.complex`, and
whose imaginary length (when present) equals the real length. -/
theorem numeric_ok_props {e : Endian} {fl : ArrayFlags} {i : List Nat}
    {de : DataElement} {r : List Nat}
    (h : parse_numeric_matrix_subelements e fl i = .ok (de, r)) :
    ∃ dims nm re im,
      de = .NumericMatrix fl dims nm re im ∧
      re.len = usizeOfI32 (wrapI32 dims.prod) ∧
      im.isSome = fl.complex ∧
      (∀ imd, im = some imd → imd.len = re.len) := by
  unfold parse_numeric_matrix_subelements at h
  split at h
  · simp at h
  · next dims i1 hdims =>
    split at h
    · simp at h
    · next nm i2 hnm =>
      split at h
      · simp at h
      · next re i3 hre =>
        simp only [] at h
        split at h
        · simp at h
        · next adt hadt =>
          split at h
          · simp at h
          · next u i3b hass =>
            obtain ⟨hcond, hi3b⟩ := assertP_ok hass
            simp only [Bool.and_eq_true, beq_iff_eq] at hcond
            by_cases hc : fl.complex
            · simp only [hc, if_true] at h
              split at h
              · simp at h
              · next im i4 him =>
                split at him
                · simp at him
                · next im0 i40 him0 =>
                  simp only [Except.ok.injEq, Prod.mk.injEq] at him
                  obtain ⟨him1, him2⟩ := him
                  subst him1
                  subst him2
                  split at h
                  · simp at h
                  · next u2 i5 hass2 =>
                    obtain ⟨hcond2, _⟩ := assertP_ok hass2
                    simp only [Bool.and_eq_true, beq_iff_eq] at hcond2
                    simp only [Except.ok.injEq, Prod.mk.injEq] at h
                    refine ⟨dims, nm, re, some im0, h.1.symm, hcond.1, by simp [hc], ?_⟩
                    intro imd himd
                    simp only [Option.some.injEq] at himd
                    subst himd
                    rw [hcond2.1, hcond.1]
            · have hcf : fl.complex = false := by simpa using hc
              simp only [hcf, Bool.false_eq_true, if_false] at h
              split at h
              · simp at h
              · next u2 i5 hass2 =>
                simp only [Except.ok.injEq, Prod.mk.injEq] at h
                refine ⟨dims, nm, re, none, h.1.symm, hcond.1, by simp [hcf], ?_⟩
                intro imd himd
                simp at himd

/-- Helper: the matrix dispatcher can only produce a `NumericMatrix` through
numeric assembly, so the numeric-assembly properties transfer. -/
theorem matrix_with_numeric_props {pm : ParserFn DataElement} {e : Endian}
    {i : List Nat} {fl : ArrayFlags} {dims : List Int} {nm : List Nat}
    {re : NumericData} {im : Option NumericData} {r : List Nat}
    (h : parse_matrix_data_element_with pm e i =
      .ok (.NumericMatrix fl dims nm re im, r)) :
    re.len = usizeOfI32 (wrapI32 dims.prod) ∧
    im.isSome = fl.complex ∧
    (∀ imd, im = some imd → imd.len = re.len) := by
  unfold parse_matrix_data_element_with at h
  split at h
  · simp at h
  · next flags i1 hflags =>
    split at h
    · simp [parse_unsupported_data_element] at h
    · obtain ⟨dims2, nm2, fnl, fns, flds, i3, i4, hde, _, _⟩ := structure_ok_shape h
      simp at hde
    · simp [parse_unsupported_data_element] at h
    · simp [parse_unsupported_data_element] at h
    · obtain ⟨dims2, nm2, ri, cs, re2, im2, hde⟩ := sparse_ok_shape h
      simp at hde
    · obtain ⟨dims2, nm2, re2, im2, hde, hlen, hsome, himd⟩ := numeric_ok_props h
      simp only [DataElement.NumericMatrix.injEq] at hde
      obtain ⟨hfl, hdims, hnm, hre, him⟩ := hde
      subst hfl; subst hdims; subst hre; subst him
      exact ⟨hlen, hsome, himd⟩

/-- C7 counterexample: `c7bytes` parses successfully into a `NumericMatrix`
with declared dimensions `[65536, 65536, 2]` and an EMPTY real part: the
`i32` product of the dimensions wraps to 0, so the real part's element count
(0) does not equal the true product of the declared dimensions
(`2^33 = 8589934592`). -/
theorem c7_counterexample :
    parse_matrix_data_element 0 .little c7bytes =
      .ok (.NumericMatrix flD [65536, 65536, 2] [97] (.Double []) none, []) ∧
    (NumericData.Double []).len = 0 ∧
    ([65536, 65536, 2] : List Int).prod = 8589934592 ∧
    (0 : Int) ≠ 8589934592 :=
  ⟨rfl, rfl, by decide, by decide⟩

/-- C7 (amended): for every input on which the matrix parser succeeds with a
`NumericMatrix`, the real part's element count equals the product of the
declared dimensions AS THE CODE COMPUTES IT — the wrapping-`i32` product cast
`as usize` (equal to the true product whenever that product fits in `i32`) —
and whenever `flags.complex` is set the imaginary part is present with
element count equal to the real part's (and absent when it is not set). -/
theorem c7_numeric_counts :
    ∀ (fuel : Nat) (e : Endian) (i : List Nat) (fl : ArrayFlags)
      (dims : List Int) (nm : List Nat) (re : NumericData)
      (im : Option NumericData) (r : List Nat),
      parse_matrix_data_element fuel e i = .ok (.NumericMatrix fl dims nm re im, r) →
      re.len = usizeOfI32 (wrapI32 dims.prod) ∧
      im.isSome = fl.complex ∧
      (∀ imd, im = some imd → imd.len = re.len) := by
  intro fuel e i fl dims nm re im r h
  cases fuel with
  | zero => exact matrix_with_numeric_props h
  | succ n => exact matrix_with_numeric_props h

/-- C7 witness: the amended statement at the concrete parse of `c7bytes`. -/
theorem c7_numeric_counts_witness :
    (NumericData.Double []).len =
      usizeOfI32 (wrapI32 ([65536, 65536, 2] : List Int).prod) ∧
    (none : Option NumericData).isSome = flD.complex ∧
    (∀ imd, (none : Option NumericData) = some imd →
      imd.len = (NumericData.Double []).len) :=
  c7_numeric_counts 0 .little c7bytes flD [65536, 65536, 2] [97]
    (.Double []) none [] rfl

/-- C9: every successful structure parse yields exactly
`product(dims)` (wrapping `i32`, cast `as usize`) field names and the same
number of field values, and the field values form a back-to-back chain of
runs of the matrix parser `pm` itself — each field parse starts exactly where
the previous one stopped (no element-level tag, no per-field length
delimitation, no per-field padding), and `pm` starts directly at the
array-flags subelement (`parse_matrix_data_element_with` parses flags
first). -/
theorem c9_structure_fields_back_to_back :
    ∀ (pm : ParserFn DataElement) (e : Endian) (fl : ArrayFlags)
      (i : List Nat) (de : DataElement) (r : List Nat),
      parse_structure_matrix_subelements pm e fl i = .ok (de, r) →
      ∃ dims nm fnl fns flds j,
        de = .StructureMatrix fl dims nm fnl fns flds ∧
        fns.length = usizeOfI32 (wrapI32 dims.prod) ∧
        flds.length = usizeOfI32 (wrapI32 dims.prod) ∧
        ParseChain pm flds j r := by
  intro pm e fl i de r h
  obtain ⟨dims, nm, fnl, fns, flds, i3, i4, hde, hfns, hflds⟩ := structure_ok_shape h
  obtain ⟨hlen1, _⟩ := countPAux_chain (countP_ok hfns)
  obtain ⟨hlen2, hchain⟩ := countPAux_chain (countP_ok hflds)
  exact ⟨dims, nm, fnl, fns, flds, i4, hde, hlen1, hlen2, hchain⟩

/-- C9 witness: the statement at the concrete structure input `c9bytes`
(one field, parsed flags-first with nothing between prelude and field). -/
theorem c9_structure_fields_back_to_back_witness :
    ∃ dims nm fnl fns flds j,
      structEl0 = .StructureMatrix flStruct dims nm fnl fns flds ∧
      fns.length = usizeOfI32 (wrapI32 dims.prod) ∧
      flds.length = usizeOfI32 (wrapI32 dims.prod) ∧
      ParseChain (parse_matrix_data_element 0 .little) flds j [] :=
  c9_structure_fields_back_to_back (parse_matrix_data_element 0 .little)
    .little flStruct c9bytes structEl0 [] rfl
